import Mathlib

/-!
Formal model of the Banda UI component library (TypeScript), shallowly
embedded in Lean: the reactive state engine (`src/core/state.ts`), the
plugin registry (`src/core/plugins.ts`), the table sort/paginate pipeline
(`src/components/table/table.ts`), the date-picker disabled-date policy
(`src/components/datepicker/datepicker.ts`), the form validation engine
(`src/banda/validation.ts`, shipped here as `unnamed/part_004`), and the
modal open/close lifecycle (`src/components/modal/modal.ts`).

JavaScript values are modelled as follows: machine numbers used by these
modules are plain integers (`Int`), strings are `String`, `undefined` and
`null` are `Option`, a JS `Map` is an insertion-ordered association list,
a JS `Set` is an insertion-ordered duplicate-free list, and `async`
functions that can reject are functions into `Except`.  Callbacks whose
only role is to be invoked are modelled as opaque identifiers (`Nat`),
and each model records an invocation log so that "the subscriber fired
exactly once" becomes a statement about the log.
-/

set_option autoImplicit false

namespace Banda

/-! ## Reactive state cell — `createState` (state.ts:45-80)

A `Cell` is one `createState` container observed by a single subscriber
`fn`.  `log` records every invocation of `fn`, as the `(value, prevValue)`
pair it was called with.  `cellSet` is `set` from state.ts:51-63: it
computes the new value, compares it to the previous one with `!==`
(structural inequality on primitive values), and notifies only on change.
-/

structure Cell (α : Type) where
  value : α
  log : List (α × α)
deriving DecidableEq

/-- `set(newValue)` for a literal value, state.ts:51-63, with the single
subscriber's invocations appended to `log`. -/
def cellSet {α : Type} [DecidableEq α] (newValue : α) (c : Cell α) : Cell α :=
  let prevValue := c.value
  if newValue ≠ prevValue then
    { value := newValue, log := c.log ++ [(newValue, prevValue)] }
  else
    { value := newValue, log := c.log }

/-- `set(fn)` for an updater function, state.ts:53-54. -/
def cellSetWith {α : Type} [DecidableEq α] (f : α → α) (c : Cell α) : Cell α :=
  cellSet (f c.value) c

/-! ## Computed state and batching — `createComputed` (state.ts:96-138),
`batch` (state.ts:186-217)

The spec's canonical computed-state scenario: two integer states `a` and
`b` (both initially `0`) and `c = createComputed([a, b], (x, y) => x + y)`,
with one subscriber on `c`.  `SumWorld` is the whole mutable world of that
scenario: the two dependency values, the computed cache `cCached`
(state.ts:107), the invocation log of `c`'s subscriber, and the
module-level `batchDepth` counter (state.ts:186).

`batchQueue` is not represented: nothing in `state.ts` (or anywhere else
under `src/`) ever calls `queueBatchCallback`, so the queue flushed by
`batch` at state.ts:195-201 is always empty.  Crucially, `set`
(state.ts:51-63) notifies subscribers unconditionally — it never consults
`batchDepth` or the queue — and the model mirrors that.
-/

structure SumWorld where
  a : Int
  b : Int
  cCached : Int
  cLog : List (Int × Int)
  batchDepth : Nat
deriving DecidableEq

/-- `getValue()` of the computed state: the compute function
`(x, y) => x + y` applied to a fresh snapshot of the dependencies
(state.ts:100-105). -/
def computeSum (w : SumWorld) : Int := w.a + w.b

/-- The handler `createComputed` subscribes to every dependency
(state.ts:111-122): recompute, compare to the cached value, and notify
`c`'s subscribers only on change. -/
def computedDepNotify (w : SumWorld) : SumWorld :=
  let prevValue := w.cCached
  let cached := computeSum w
  if cached ≠ prevValue then
    { w with cCached := cached, cLog := w.cLog ++ [(cached, prevValue)] }
  else
    { w with cCached := cached }

/-- `a.set(x)` (state.ts:51-63).  `a`'s only subscriber is the computed
dependency handler. -/
def setA (x : Int) (w : SumWorld) : SumWorld :=
  let prevValue := w.a
  let w1 := { w with a := x }
  if x ≠ prevValue then computedDepNotify w1 else w1

/-- `b.set(x)` (state.ts:51-63). -/
def setB (x : Int) (w : SumWorld) : SumWorld :=
  let prevValue := w.b
  let w1 := { w with b := x }
  if x ≠ prevValue then computedDepNotify w1 else w1

/-- `batch(fn)` (state.ts:189-203): bump the nesting counter, run the
body, restore the counter, and flush the (always empty) queue. -/
def batchRun (body : SumWorld → SumWorld) (w : SumWorld) : SumWorld :=
  let w1 := { w with batchDepth := w.batchDepth + 1 }
  let w2 := body w1
  { w2 with batchDepth := w2.batchDepth - 1 }

/-- The scenario's initial world: `a = createState(0)`,
`b = createState(0)`, `c = createComputed([a, b], (x, y) => x + y)`
(so `cCached = 0 + 0`), one subscriber on `c`, not inside any batch. -/
def sumWorld0 : SumWorld := { a := 0, b := 0, cCached := 0, cLog := [], batchDepth := 0 }

/-! ## Notification with re-entrant subscribe/unsubscribe (state.ts:58-70)

`set` iterates the live `Set` of subscribers with `for (const subscriber
of subscribers)`.  A JS `Set` iterator visits entries in insertion order;
entries deleted before being reached are skipped; entries added during
iteration are appended and visited; a visited entry that is deleted and
re-added is visited again at its new position.

A subscriber callback is an opaque id whose behaviour during the
notification is its *effect*: the list of `subscribe`/`unsubscribe`
operations it performs when invoked (state.ts:65-69).  The notification
loop state splits the `Set`'s contents positionally: `done` holds the
entries the iterator has passed and that are still in the set, `todo` the
entries not yet reached, both in insertion order.  `log` records every
invocation. -/

/-- One `subscribe` / `unsubscribe` call performed by a callback while a
notification is in progress. -/
inductive SubOp where
  | sub (id : Nat)
  | unsub (id : Nat)
deriving DecidableEq

structure NotifySt where
  done : List Nat
  todo : List Nat
  log : List Nat
deriving DecidableEq

/-- `subscribers.add` (a no-op when already present, appends otherwise)
and `subscribers.delete` (removes the entry wherever it is),
state.ts:66-68. -/
def applyOp (s : NotifySt) (op : SubOp) : NotifySt :=
  match op with
  | .sub i =>
      if s.done.contains i || s.todo.contains i then s
      else { s with todo := s.todo ++ [i] }
  | .unsub i =>
      { s with done := s.done.filter (fun j => j ≠ i),
               todo := s.todo.filter (fun j => j ≠ i) }

/-- The effect of callback `i`: first entry for `i` in the effect table,
empty if absent. -/
def lookupEff (effs : List (Nat × List SubOp)) (i : Nat) : List SubOp :=
  match effs.find? (fun e => e.1 == i) with
  | some e => e.2
  | none => []

/-- The `for (const subscriber of subscribers)` loop of state.ts:59-61
over the live subscriber `Set`, fuel-bounded (a callback that deletes and
re-adds entries can make the real loop run forever).  Returns the final
state and whether the loop reached the end of the iterator. -/
def notifyRun (effs : List (Nat × List SubOp)) : Nat → NotifySt → NotifySt × Bool
  | _, ⟨d, [], l⟩ => (⟨d, [], l⟩, true)
  | 0, s => (s, false)
  | Nat.succ fuel, ⟨d, h :: t, l⟩ =>
      notifyRun effs fuel ((lookupEff effs h).foldl applyOp ⟨d ++ [h], t, l ++ [h]⟩)

/-- A notification over start set `subs` (insertion order): every entry
unvisited, empty log. -/
def notifyStart (subs : List Nat) : NotifySt := ⟨[], subs, []⟩

/-- Proof invariant for the notification loop: a subscriber `x` that no
callback ever unsubscribes sits either un-visited in `todo` (exactly
once, never invoked yet) or visited in `done` (exactly once, invoked
exactly once). -/
def countsOk (x : Nat) (s : NotifySt) : Prop :=
  (s.done.count x = 0 ∧ s.todo.count x = 1 ∧ s.log.count x = 0) ∨
  (s.done.count x = 1 ∧ s.todo.count x = 0 ∧ s.log.count x = 1)

/-! ## Plugin registry — `src/core/plugins.ts`

Hook callbacks and provided values are opaque ids (`Nat`).  The
module-level mutable state (plugins.ts:49-64) is `PluginSt`: the
`plugins` and `provides` JS `Map`s as insertion-ordered association
lists, plus the four `hookSubscribers` arrays. -/

structure Plugin where
  name : String
  dependencies : List String
  onMount : Option Nat
  onUnmount : Option Nat
  beforeStateUpdate : Option Nat
  afterStateUpdate : Option Nat
  provides : List (String × Nat)
deriving DecidableEq

structure PluginSt where
  plugins : List (String × Plugin)
  provides : List (String × Nat)
  onMount : List Nat
  onUnmount : List Nat
  beforeStateUpdate : List Nat
  afterStateUpdate : List Nat
deriving DecidableEq

/-- `Map.prototype.get` on an insertion-ordered association list. -/
def lookupMap {V : Type} (m : List (String × V)) (k : String) : Option V :=
  (m.find? (fun e => e.1 == k)).map (fun e => e.2)

/-- `Map.prototype.set`: overwrite the existing entry in place, else
append. -/
def mapSet {V : Type} (m : List (String × V)) (k : String) (v : V) : List (String × V) :=
  if (m.find? (fun e => e.1 == k)).isSome then
    m.map (fun e => if e.1 == k then (k, v) else e)
  else
    m ++ [(k, v)]

/-- `Map.prototype.delete`. -/
def mapDelete {V : Type} (m : List (String × V)) (k : String) : List (String × V) :=
  m.filter (fun e => e.1 ≠ k)

/-- The dependency scan of `use` (plugins.ts:91-97): the first declared
dependency that is not installed, if any. -/
def findMissingDep (s : PluginSt) (deps : List String) : Option String :=
  deps.find? (fun d => (lookupMap s.plugins d).isNone)

/-- Hook registration (plugins.ts:103-116): push each declared hook onto
the corresponding subscriber array. -/
def pushHooks (s : PluginSt) (p : Plugin) : PluginSt :=
  let s1 := match p.onMount with
    | some h => { s with onMount := s.onMount ++ [h] }
    | none => s
  let s2 := match p.onUnmount with
    | some h => { s1 with onUnmount := s1.onUnmount ++ [h] }
    | none => s1
  let s3 := match p.beforeStateUpdate with
    | some h => { s2 with beforeStateUpdate := s2.beforeStateUpdate ++ [h] }
    | none => s2
  match p.afterStateUpdate with
    | some h => { s3 with afterStateUpdate := s3.afterStateUpdate ++ [h] }
    | none => s3

/-- Provider registration (plugins.ts:119-126): `state.provides.set` for
each entry of `plugin.provides` (a warning, not an error, on
overwrite). -/
def registerProvides (s : PluginSt) (p : Plugin) : PluginSt :=
  p.provides.foldl (fun acc kv => { acc with provides := mapSet acc.provides kv.1 kv.2 }) s

/-- Outcome of `use(plugin)` (plugins.ts:84-132).  `alreadyInstalled` is
the early `return` with a `console.warn`; `depError` is the synchronous
`throw`, carrying the registry state as it stands at the throw;
`ok` is normal completion. -/
inductive UseResult where
  | alreadyInstalled (s : PluginSt)
  | depError (dep : String) (s : PluginSt)
  | ok (s : PluginSt)
deriving DecidableEq

/-- `use(plugin)`, plugins.ts:84-132: name-collision check, dependency
check (throws on the first missing dependency, before any mutation),
then plugin registration, hook registration, provider registration.
The `install` hook call (plugins.ts:129) has no effect on the registry
state. -/
def use (s : PluginSt) (p : Plugin) : UseResult :=
  if (lookupMap s.plugins p.name).isSome then
    .alreadyInstalled s
  else
    match findMissingDep s p.dependencies with
    | some d => .depError d s
    | none =>
        .ok (registerProvides (pushHooks { s with plugins := mapSet s.plugins p.name p } p) p)

/-- `uninstall(name)`, plugins.ts:169-185: delete the plugin's provided
keys and its registry entry; the hook subscriber arrays are left as they
are (the source marks hook removal as "simplified" and does not do
it). -/
def uninstall (s : PluginSt) (name : String) : Bool × PluginSt :=
  match lookupMap s.plugins name with
  | none => (false, s)
  | some p =>
      (true,
       { s with
         provides := p.provides.foldl (fun m kv => mapDelete m kv.1) s.provides,
         plugins := mapDelete s.plugins name })

/-- `triggerMount` (plugins.ts:192-200) invokes every `onMount`
subscriber in order, each inside its own try/catch; the result is the
invocation log. -/
def triggerMount (s : PluginSt) : List Nat := s.onMount

/-- `triggerUnmount` (plugins.ts:203-211). -/
def triggerUnmount (s : PluginSt) : List Nat := s.onUnmount

/-- `applyBeforeStateUpdate` (plugins.ts:214-224) folds the value through
every `beforeStateUpdate` subscriber in order; the invocation log is the
subscriber list itself. -/
def applyBeforeStateUpdateLog (s : PluginSt) : List Nat := s.beforeStateUpdate

/-- `triggerAfterStateUpdate` (plugins.ts:227-235). -/
def triggerAfterStateUpdateLog (s : PluginSt) : List Nat := s.afterStateUpdate

/-- The empty registry (plugins.ts:49-64). -/
def pluginSt0 : PluginSt := ⟨[], [], [], [], [], []⟩

/-! ## Table sort / paginate pipeline — `src/components/table/table.ts`

Cell values reached by `a[sort.key]` are modelled as integers; a row is
any type `α` together with a projection `val : α → String → Int` standing
for property access by column key.  `Array.prototype.sort` with a
comparator is modelled as a stable sort: an element `a` is placed before
`b` exactly when `cmp a b < 0`, and elements comparing equal keep their
original relative order. -/

inductive SortDirection where
  | asc
  | desc
deriving DecidableEq

/-- `SortState` (table.ts:35-38): `key: string | null`,
`direction: 'asc' | 'desc' | null`. -/
structure SortState where
  key : Option String
  direction : Option SortDirection
deriving DecidableEq

/-- `toggleSort(key)` (table.ts:151-167), as the transition it applies to
the sort state: a different (or no) column starts at `asc`, `asc` goes to
`desc`, `desc` clears, and the stored key is nulled exactly when the
direction is. -/
def toggleSortNext (current : SortState) (key : String) : SortState :=
  let direction : Option SortDirection :=
    if current.key ≠ some key then some .asc
    else if current.direction = some .asc then some .desc
    else none
  { key := if direction.isSome then some key else none, direction := direction }

/-- The row comparator of table.ts:127-132:
`aVal < bVal ? -1 : aVal > bVal ? 1 : 0`, negated for `desc`. -/
def jsRowCmp (dir : SortDirection) (aVal bVal : Int) : Int :=
  let cmp : Int := if aVal < bVal then -1 else if bVal < aVal then 1 else 0
  match dir with
  | .asc => cmp
  | .desc => -cmp

/-- Stable insertion of `x` into `l`: `x` passes over exactly the
elements it strictly precedes under the comparator. -/
def insertCmp {α : Type} (cmp : α → α → Int) (x : α) : List α → List α
  | [] => [x]
  | y :: ys => if cmp x y < 0 then x :: y :: ys else y :: insertCmp cmp x ys

/-- Stable comparator sort, the model of `Array.prototype.sort(cmp)`. -/
def sortCmp {α : Type} (cmp : α → α → Int) : List α → List α
  | [] => []
  | x :: xs => insertCmp cmp x (sortCmp cmp xs)

/-- `getProcessedData()` (table.ts:121-136): copy the data prop, and sort
the copy only when both a sort key and a direction are set. -/
def getProcessedData {α : Type} (val : α → String → Int) (data : List α)
    (sort : SortState) : List α :=
  match sort.key, sort.direction with
  | some k, some dir => sortCmp (fun a b => jsRowCmp dir (val a k) (val b k)) data
  | _, _ => data

/-- `PaginationOptions` (table.ts:41-45), the fields the pipeline reads. -/
structure PaginationOptions where
  enabled : Bool
  pageSize : Nat
deriving DecidableEq

/-- `getPaginatedData()` (table.ts:138-149): the processed (fully sorted)
dataset, with `slice(start, start + pageSize)` applied afterwards when
pagination is enabled.  `page` is `currentPage`, which starts at 1
(table.ts:117). -/
def getPaginatedData {α : Type} (val : α → String → Int) (data : List α)
    (sort : SortState) (pagination : Option PaginationOptions) (page : Nat) : List α :=
  let result := getProcessedData val data sort
  match pagination with
  | some pg =>
      if pg.enabled then ((result.drop ((page - 1) * pg.pageSize)).take pg.pageSize)
      else result
  | none => result

/-- The initial sort state (table.ts:116). -/
def sortState0 : SortState := ⟨none, none⟩

/-! ## Date picker disabled-date policy — `src/components/datepicker/datepicker.ts`

A JS `Date` is a point in time; comparison with `<`/`>` compares epoch
milliseconds.  For normalized Gregorian dates in one time zone that order
is exactly the lexicographic order on (year, month, day, time-of-day), so
a `Date` is modelled as that quadruple (`month` 0-based, as in JS). -/

structure JSDate where
  year : Int
  month : Int
  day : Int
  timeOfDay : Int
deriving DecidableEq

/-- `a < b` on JS `Date` values: lexicographic on
(year, month, day, timeOfDay). -/
def dateLt (a b : JSDate) : Bool :=
  if a.year < b.year then true
  else if b.year < a.year then false
  else if a.month < b.month then true
  else if b.month < a.month then false
  else if a.day < b.day then true
  else if b.day < a.day then false
  else decide (a.timeOfDay < b.timeOfDay)

/-- `isSameDay` (datepicker.ts:64-68): same `getFullYear`, `getMonth`,
`getDate`. -/
def isSameDay (a b : JSDate) : Bool :=
  a.year == b.year && a.month == b.month && a.day == b.day

/-- `isDateDisabled` (datepicker.ts:71-83). -/
def isDateDisabled (date : JSDate) (minDate maxDate : Option JSDate)
    (disabledDates : Option (List JSDate)) : Bool :=
  if (match minDate with | some m => dateLt date m | none => false) then true
  else if (match maxDate with | some m => dateLt m date | none => false) then true
  else
    match disabledDates with
    | some ds => ds.any (fun d => isSameDay d date)
    | none => false

/-- The `onClick` handler of a calendar-grid day button
(datepicker.ts:176-187): the button carries `disabled: isDisabled` and
the handler runs `selectDate(date)` — which invokes `onChange?.(date)`
(datepicker.ts:222-227) — only when `!isDisabled`.  The result is the
payload `onChange` is invoked with, `none` when it is not invoked. -/
def dayButtonClick (date : JSDate) (minDate maxDate : Option JSDate)
    (disabledDates : Option (List JSDate)) : Option JSDate :=
  if isDateDisabled date minDate maxDate disabledDates then none else some date

/-! ## Form validation engine — `src/banda/validation.ts` (unnamed/part_004)

A validation rule is a pure function from the field's string value to
`{valid, message?}`.  Rules stay abstract Lean functions; the built-in
`required` rule is given concretely for witnesses. -/

structure ValidationResult where
  valid : Bool
  message : Option String

/-- A rule, `ValidationRule = (value) => ValidationResult`. -/
def ValidationRule : Type := String → ValidationResult

/-- `rules.required()` with the default message (part_004:25-29); a
string value is never `undefined`/`null`, so validity reduces to
`value !== ''`. -/
def requiredRule : ValidationRule := fun value =>
  { valid := !(value == ""),
    message := if value == "" then some "This field is required" else none }

/-- `FieldState` (part_004:114-120). -/
structure FieldState where
  value : String
  touched : Bool
  dirty : Bool
  valid : Bool
  errors : List (Option String)

/-- The initial state of a field validator (part_004:135-141). -/
def fieldState0 : FieldState :=
  { value := "", touched := false, dirty := false, valid := true, errors := [] }

/-- The failing rules' messages in declaration order, part_004:148-149:
`results.filter(r => !r.valid).map(r => r.message!)` — note the non-null
assertion is only a cast, so a failing rule without a message contributes
`undefined` (here `none`) to the list. -/
def failingMessages (fieldRules : List ValidationRule) (value : String) : List (Option String) :=
  ((fieldRules.map (fun rule => rule value)).filter (fun r => !r.valid)).map
    (fun r => r.message)

/-- `updateState(newValue)` of a field validator (part_004:147-158). -/
def updateState (fieldRules : List ValidationRule) (s : FieldState) (newValue : String) :
    FieldState :=
  let errors := failingMessages fieldRules newValue
  { s with value := newValue, dirty := true, valid := errors.isEmpty, errors := errors }

/-- `validate()` of a field validator (part_004:183-188): re-validate the
current value, mark touched, and return the resulting `valid` flag. -/
def fieldValidate (fieldRules : List ValidationRule) (s : FieldState) : FieldState × Bool :=
  let s1 := updateState fieldRules s s.value
  let s2 := { s1 with touched := true }
  (s2, s2.valid)

/-- One named field of a form: its configured rules and its current
state. -/
structure FormField where
  rules : List ValidationRule
  fst : FieldState

/-- A form: its fields in declaration order (`Object.entries` /
`Object.values` iterate string keys in insertion order). -/
abbrev Form : Type := List (String × FormField)

/-- `validate()` of a form (part_004:316-324): run *every* field's
`validate()` — the loop never short-circuits — and return whether all
passed. -/
def formValidate (form : Form) : Form × Bool :=
  form.foldl
    (fun acc nf =>
      let r := fieldValidate nf.2.rules nf.2.fst
      (acc.1 ++ [(nf.1, { nf.2 with fst := r.1 })], acc.2 && r.2))
    ([], true)

/-- `getValues()` (part_004:282-288): each field's current value under
its name. -/
def getValues (form : Form) : List (String × String) :=
  form.map (fun nf => (nf.1, nf.2.fst.value))

/-- What one `handleSubmit` call did.  `submittingTrace` is the sequence
of values assigned to the `submitting` flag during the call, in order;
`result` is the promise outcome (`Except.error` = rejected,
`.ok none` = resolved with `null`). -/
structure SubmitOutcome (ε ρ : Type) where
  form : Form
  submittingTrace : List Bool
  fnInvoked : Bool
  result : Except ε (Option ρ)

/-- `handleSubmit(onSubmit)` (part_004:340-355): validate first and
return `null` when validation fails, without touching the `submitting`
flag; otherwise set `submitting` to `true`, call `onSubmit` with the
collected values, and reset the flag in a `finally` on both the resolve
and the reject path.  The user callback is an `Except`-valued function
standing for an async function that can reject. -/
def handleSubmit {ε ρ : Type} (form : Form)
    (onSubmit : List (String × String) → Except ε ρ) : SubmitOutcome ε ρ :=
  let v := formValidate form
  if !v.2 then
    { form := v.1, submittingTrace := [], fnInvoked := false, result := .ok none }
  else
    match onSubmit (getValues v.1) with
    | .ok r =>
        { form := v.1, submittingTrace := [true, false], fnInvoked := true,
          result := .ok (some r) }
    | .error e =>
        { form := v.1, submittingTrace := [true, false], fnInvoked := true,
          result := .error e }

/-! ## Modal lifecycle — `src/components/modal/modal.ts`

Modal instances are numbered; `ModalInstance` is the data a modal's
master cleanup closure captured at open time (modal.ts:268-293): its
backdrop element and the `document.body.style.overflow` value it saved.
`ModalWorld` is the world the module mutates: the backdrops attached to
`document.body` (in order), which of them carry the closing CSS classes,
the body overflow style, the per-modal Escape listeners currently on the
document, the module-level `activeModal` reference (modal.ts:46), the
pending `setTimeout` callbacks in schedule order, and the log of master
cleanups that have run. -/

structure ModalInstance where
  id : Nat
  savedOverflow : String
deriving DecidableEq

/-- The pending `setTimeout(..., 200)` bodies: both `handleClose`
(modal.ts:243-246) and `closeModal` (modal.ts:311-313) schedule
`activeModal?.cleanup()` — a read of the *current* module-level
`activeModal`, not of the modal that was being closed. -/
inductive ModalTimer where
  | cleanupActive
deriving DecidableEq

structure ModalWorld where
  attached : List Nat
  closingClass : List Nat
  bodyOverflow : String
  escListeners : List Nat
  active : Option ModalInstance
  timers : List ModalTimer
  cleanupRan : List Nat
deriving DecidableEq

/-- The master `cleanup` of modal `m` (modal.ts:285-293): run the
cleanup functions (restore the saved body overflow, remove the Escape
listener and focus trap), detach the backdrop if still attached, null
`activeModal`. -/
def runCleanup (m : ModalInstance) (w : ModalWorld) : ModalWorld :=
  { w with
    bodyOverflow := m.savedOverflow,
    escListeners := w.escListeners.filter (fun j => j ≠ m.id),
    attached := w.attached.filter (fun j => j ≠ m.id),
    active := none,
    cleanupRan := w.cleanupRan ++ [m.id] }

/-- Fire the oldest pending timer: `activeModal?.cleanup()` against the
`activeModal` reference as it is *now*. -/
def fireTimer (w : ModalWorld) : ModalWorld :=
  match w.timers with
  | [] => w
  | _ :: rest =>
      let w1 := { w with timers := rest }
      match w1.active with
      | some m => runCleanup m w1
      | none => w1

/-- `closeModal()` (modal.ts:301-315): when a modal is active, add the
closing CSS classes to its backdrop and schedule the deferred cleanup;
otherwise do nothing.  Nothing is detached and no cleanup runs yet. -/
def closeModalStep (w : ModalWorld) : ModalWorld :=
  match w.active with
  | some m =>
      { w with closingClass := w.closingClass ++ [m.id],
               timers := w.timers ++ [.cleanupActive] }
  | none => w

/-- `openModal(props)` (modal.ts:214-296) for a modal with the default
`closeOnEscape = true`: close any existing modal first (which only
schedules), append the new backdrop to `document.body`, save and
override the body overflow, install the Escape listener and focus trap,
and set `activeModal` to the new instance. -/
def openModalStep (id : Nat) (w : ModalWorld) : ModalWorld :=
  let w1 := if w.active.isSome then closeModalStep w else w
  let w2 := { w1 with attached := w1.attached ++ [id] }
  let saved := w2.bodyOverflow
  let w3 := { w2 with bodyOverflow := "hidden" }
  let w4 := { w3 with escListeners := w3.escListeners ++ [id] }
  { w4 with active := some ⟨id, saved⟩ }

/-- The initial world: nothing attached, no modal open, body scroll
enabled. -/
def modalWorld0 : ModalWorld :=
  { attached := [], closingClass := [], bodyOverflow := "", escListeners := [],
    active := none, timers := [], cleanupRan := [] }

/-! ## Theorems -/

/-- C1: For `c = createComputed([a, b], (x, y) => x + y)` over states `a`
and `b` initially `0`, after `a.set(2); b.set(3)` indeed `c.get() === 5`;
but when `a.set(2)` and `b.set(3)` are performed inside one `batch(...)`
call, the subscriber on `c` is invoked **twice** — once per dependency
change, with `(2, 0)` and then `(5, 2)` — not once for the net change:
`set` (state.ts:51-63) notifies synchronously without ever consulting
`batchDepth`, and neither `createState` nor `createComputed` calls
`queueBatchCallback`, so `batch` defers nothing.  This contradicts the
claim and the library's own documentation (`docs/core/state.md`: "With
batch: 1 notification after both updates"). -/
theorem c1_batch_still_notifies_per_dependency :
    (setB 3 (setA 2 sumWorld0)).cCached = 5 ∧
    (batchRun (fun w => setB 3 (setA 2 w)) sumWorld0).cCached = 5 ∧
    (batchRun (fun w => setB 3 (setA 2 w)) sumWorld0).cLog = [(2, 0), (5, 2)] ∧
    ¬ (batchRun (fun w => setB 3 (setA 2 w)) sumWorld0).cLog.length = 1 := by
  decide

/-- C2: `openModal(1)` followed by `openModal(2)` (A never explicitly
closed).  Contrary to the claim, right after the second call **both**
backdrops are attached to the document and A's cleanup has not run; and
when the 200 ms closing timer scheduled by `closeModal` fires, the
`setTimeout` body runs `activeModal?.cleanup()` against the *current*
`activeModal` — which is now B — so B's cleanup runs, B's backdrop is
removed, A's backdrop stays attached forever, A's Escape listener stays
installed, and the body overflow is "restored" to the `"hidden"` B saved.
The code's own comment at modal.ts:215 ("Close any existing modal
first") and the spec state the intended singleton behaviour; the deferred
cleanup reading the mutable `activeModal` reference defeats it. -/
theorem c2_open_while_open_cleans_up_wrong_modal :
    (openModalStep 2 (openModalStep 1 modalWorld0)).attached = [1, 2] ∧
    (openModalStep 2 (openModalStep 1 modalWorld0)).cleanupRan = [] ∧
    (fireTimer (openModalStep 2 (openModalStep 1 modalWorld0))).attached = [1] ∧
    (fireTimer (openModalStep 2 (openModalStep 1 modalWorld0))).cleanupRan = [2] ∧
    (fireTimer (openModalStep 2 (openModalStep 1 modalWorld0))).bodyOverflow = "hidden" ∧
    (fireTimer (openModalStep 2 (openModalStep 1 modalWorld0))).escListeners = [1] := by
  decide

/-- C3 (counterexample): with initial value `0` and `x = 0`, the sequence
`subscribe(fn); set(0); set(0)` invokes `fn` zero times, not exactly
once — the first `set` already finds the value unchanged. -/
theorem c3_same_value_zero_invocations :
    ¬ ((cellSet (0 : Int) (cellSet 0 ⟨0, []⟩)).log.length = 1) := by
  decide

/-- C3 (amended): after `subscribe(fn)`, the call sequence
`set(x); set(x)` invokes `fn` exactly once — with `(x, previous value)` —
when `x` is strictly unequal to the state's current value, and zero
times when `x` equals it; in particular a subscriber is notified only
when the new value is strictly unequal (`!==`) to the previous one. -/
theorem c3_double_set_notifies_once_iff_changed {α : Type} [DecidableEq α]
    (c : Cell α) (x : α) :
    (cellSet x (cellSet x c)).log =
      c.log ++ (if x = c.value then [] else [(x, c.value)]) := by
  by_cases h : x = c.value
  · simp [cellSet, h]
  · simp [cellSet, h]

/-- Counting survives filtering by a predicate that holds at the counted
element. -/
theorem count_filter_of_pos (l : List Nat) (p : Nat → Bool) (x : Nat) (hp : p x = true) :
    (l.filter p).count x = l.count x := by
  induction l with
  | nil => rfl
  | cons a t ih =>
      by_cases hpa : p a = true
      · rw [List.filter_cons_of_pos hpa, List.count_cons, List.count_cons, ih]
      · have hax : ¬ x = a := fun he => hpa (he ▸ hp)
        rw [List.filter_cons_of_neg (by simpa using hpa), List.count_cons, ih]
        simp [hax]
        exact fun he => hax he.symm

/-- A single re-entrant `subscribe`/`unsubscribe` call that does not
unsubscribe `x` preserves the loop invariant for `x`. -/
theorem countsOk_applyOp (x : Nat) (s : NotifySt) (op : SubOp)
    (hop : op ≠ .unsub x) (h : countsOk x s) : countsOk x (applyOp s op) := by
  cases op with
  | sub i =>
      by_cases hc : i ∈ s.done ∨ i ∈ s.todo
      · simpa [applyOp, hc] using h
      · push_neg at hc
        have hi : ¬ x = i := by
          intro hxi
          subst hxi
          rcases h with ⟨_, ht, _⟩ | ⟨hd, _, _⟩
          · exact hc.2 (List.count_pos_iff.mp (by omega))
          · exact hc.1 (List.count_pos_iff.mp (by omega))
        rcases h with ⟨hd, ht, hl⟩ | ⟨hd, ht, hl⟩
        · exact Or.inl ⟨by simpa [applyOp, hc.1, hc.2] using hd,
            by simp [applyOp, hc.1, hc.2, List.count_append, List.count_cons, ht, hi],
            by simpa [applyOp, hc.1, hc.2] using hl⟩
        · exact Or.inr ⟨by simpa [applyOp, hc.1, hc.2] using hd,
            by simp [applyOp, hc.1, hc.2, List.count_append, List.count_cons, ht, hi],
            by simpa [applyOp, hc.1, hc.2] using hl⟩
  | unsub i =>
      have hi : x ≠ i := by
        intro hxi
        exact hop (by rw [hxi])
      have hp : (fun j => decide (j ≠ i)) x = true := by simp [hi]
      have hdone : (applyOp s (.unsub i)).done.count x = s.done.count x :=
        count_filter_of_pos s.done _ x hp
      have htodo : (applyOp s (.unsub i)).todo.count x = s.todo.count x :=
        count_filter_of_pos s.todo _ x hp
      have hlog : (applyOp s (.unsub i)).log = s.log := rfl
      rcases h with ⟨hd, ht, hl⟩ | ⟨hd, ht, hl⟩
      · exact Or.inl ⟨by rw [hdone]; exact hd, by rw [htodo]; exact ht,
          by rw [hlog]; exact hl⟩
      · exact Or.inr ⟨by rw [hdone]; exact hd, by rw [htodo]; exact ht,
          by rw [hlog]; exact hl⟩

/-- A whole callback body (a list of re-entrant calls, none of which
unsubscribes `x`) preserves the loop invariant for `x`. -/
theorem countsOk_foldl (x : Nat) (ops : List SubOp) (s : NotifySt)
    (hops : SubOp.unsub x ∉ ops) (h : countsOk x s) :
    countsOk x (ops.foldl applyOp s) := by
  induction ops generalizing s with
  | nil => exact h
  | cons op t ih =>
      have h1 : op ≠ .unsub x := fun he => hops (by rw [he]; exact List.mem_cons_self _ _)
      have h2 : SubOp.unsub x ∉ t := fun he => hops (List.mem_cons_of_mem _ he)
      exact ih _ h2 (countsOk_applyOp x s op h1 h)

/-- Advancing the iterator over one entry preserves the loop invariant. -/
theorem countsOk_step (x h : Nat) (d t l : List Nat)
    (hs : countsOk x ⟨d, h :: t, l⟩) :
    countsOk x ⟨d ++ [h], t, l ++ [h]⟩ := by
  by_cases hxh : x = h
  · subst hxh
    rcases hs with ⟨hd, ht, hl⟩ | ⟨_, ht, _⟩
    · refine Or.inr ⟨?_, ?_, ?_⟩
      · simp [List.count_append, hd]
      · show t.count x = 0
        simp [List.count_cons] at ht
        omega
      · simp [List.count_append, hl]
    · simp [List.count_cons] at ht
  · rcases hs with ⟨hd, ht, hl⟩ | ⟨hd, ht, hl⟩
    · refine Or.inl ⟨?_, ?_, ?_⟩
      · simp [List.count_append, List.count_cons, hd, hxh]
      · simp [List.count_cons, hxh] at ht
        exact ht
      · simp [List.count_append, List.count_cons, hl, hxh]
    · refine Or.inr ⟨?_, ?_, ?_⟩
      · simp [List.count_append, List.count_cons, hd, hxh]
      · simp [List.count_cons, hxh] at ht
        exact ht
      · simp [List.count_append, List.count_cons, hl, hxh]

/-- If no callback's effect unsubscribes `x`, neither does any looked-up
effect. -/
theorem lookupEff_no_unsub (x : Nat) (effs : List (Nat × List SubOp)) (i : Nat)
    (hx : ∀ e ∈ effs, SubOp.unsub x ∉ e.2) : SubOp.unsub x ∉ lookupEff effs i := by
  unfold lookupEff
  cases hf : effs.find? (fun e => e.1 == i) with
  | none => simp
  | some e => exact hx e (List.mem_of_find?_eq_some hf)

/-- The notification loop preserves the invariant to completion: when
the iterator reaches the end, a never-unsubscribed `x` has been invoked
exactly once. -/
theorem notifyRun_counts (x : Nat) (effs : List (Nat × List SubOp))
    (hx : ∀ e ∈ effs, SubOp.unsub x ∉ e.2) :
    ∀ (fuel : Nat) (s : NotifySt), countsOk x s → (notifyRun effs fuel s).2 = true →
      (notifyRun effs fuel s).1.log.count x = 1 := by
  intro fuel
  induction fuel with
  | zero =>
      intro s hs hc
      match s with
      | ⟨d, [], l⟩ =>
          rcases hs with ⟨_, ht, _⟩ | ⟨_, _, hl⟩
          · simp at ht
          · simpa [notifyRun] using hl
      | ⟨d, h :: t, l⟩ => simp [notifyRun] at hc
  | succ fuel ih =>
      intro s hs hc
      match s with
      | ⟨d, [], l⟩ =>
          rcases hs with ⟨_, ht, _⟩ | ⟨_, _, hl⟩
          · simp at ht
          · simpa [notifyRun] using hl
      | ⟨d, h :: t, l⟩ =>
          rw [notifyRun] at hc ⊢
          exact ih _ (countsOk_foldl x _ _ (lookupEff_no_unsub x effs h hx)
            (countsOk_step x h d t l hs)) hc

/-- C4: during a `set` notification, callbacks may subscribe new
callbacks and unsubscribe existing ones; the live-`Set` iteration of
state.ts:59-61 tolerates this, and any subscriber `x` that was in the
subscriber set when the notification started and that no callback
unsubscribes is invoked exactly once — never skipped, never
double-called — in every run of the loop that reaches the end of the
iterator.  (The completion hypothesis is genuine: a callback that
deletes and re-adds set entries makes the real JS loop run forever too;
the witness shows a run with both a re-entrant subscribe and a
re-entrant unsubscribe completing.) -/
theorem c4_reentrant_subscription_safe (subs : List Nat)
    (effs : List (Nat × List SubOp)) (x : Nat) (fuel : Nat)
    (hmem : x ∈ subs) (hnd : subs.Nodup)
    (hx : ∀ e ∈ effs, SubOp.unsub x ∉ e.2)
    (hdone : (notifyRun effs fuel (notifyStart subs)).2 = true) :
    (notifyRun effs fuel (notifyStart subs)).1.log.count x = 1 := by
  apply notifyRun_counts x effs hx fuel
  · exact Or.inl ⟨by simp [notifyStart], by
      simpa [notifyStart] using List.count_eq_one_of_mem hnd hmem, by simp [notifyStart]⟩
  · exact hdone

/-- C4 witness: subscribers `[0, 1, 2]`; while being notified, callback 0
subscribes a new callback 3 and callback 1 unsubscribes callback 2.  The
notification completes, the never-unsubscribed callback 0 ran exactly
once, and the full invocation order was `[0, 1, 3]` (2 was unsubscribed
before being reached, 3 was picked up). -/
theorem c4_reentrant_subscription_safe_witness :
    (notifyRun [(0, [SubOp.sub 3]), (1, [SubOp.unsub 2])] 10 (notifyStart [0, 1, 2])).1.log.count 0
      = 1 ∧
    (notifyRun [(0, [SubOp.sub 3]), (1, [SubOp.unsub 2])] 10 (notifyStart [0, 1, 2])).1.log
      = [0, 1, 3] :=
  ⟨c4_reentrant_subscription_safe [0, 1, 2] [(0, [SubOp.sub 3]), (1, [SubOp.unsub 2])] 0 10
      (by decide) (by decide) (by decide) (by decide),
   by decide⟩

/-- C6: from any sort state in which column `k` is not the active sort
key (in particular the initial `{key: null, direction: null}`), three
consecutive `toggleSort(k)` calls cycle asc → desc → none and return the
sort state to `{key: null, direction: null}`; the table then processes
the data prop in its original order (`getProcessedData` returns the
unsorted copy), and pagination slices its page window out of that full
dataset afterwards. -/
theorem c6_toggle_sort_cycles_to_null {α : Type} (val : α → String → Int)
    (data : List α) (s : SortState) (k : String) (ps page : Nat)
    (h : s.key ≠ some k) :
    toggleSortNext (toggleSortNext (toggleSortNext s k) k) k = ⟨none, none⟩ ∧
    getProcessedData val data (toggleSortNext (toggleSortNext (toggleSortNext s k) k) k)
      = data ∧
    getPaginatedData val data (toggleSortNext (toggleSortNext (toggleSortNext s k) k) k)
      (some ⟨true, ps⟩) page = (data.drop ((page - 1) * ps)).take ps := by
  have h3 : toggleSortNext (toggleSortNext (toggleSortNext s k) k) k = ⟨none, none⟩ := by
    simp [toggleSortNext, h]
  refine ⟨h3, ?_, ?_⟩
  · rw [h3]; rfl
  · rw [h3]; rfl

/-- C6 witness: the cycle evaluated from the initial sort state on a
concrete dataset with page size 2, page 1. -/
theorem c6_toggle_sort_cycles_to_null_witness :
    toggleSortNext (toggleSortNext (toggleSortNext sortState0 "name") "name") "name"
      = ⟨none, none⟩ ∧
    getProcessedData (fun (r : Int) _ => r) [3, 1, 2]
      (toggleSortNext (toggleSortNext (toggleSortNext sortState0 "name") "name") "name")
      = [3, 1, 2] ∧
    getPaginatedData (fun (r : Int) _ => r) [3, 1, 2]
      (toggleSortNext (toggleSortNext (toggleSortNext sortState0 "name") "name") "name")
      (some ⟨true, 2⟩) 1 = (([3, 1, 2] : List Int).drop ((1 - 1) * 2)).take 2 :=
  c6_toggle_sort_cycles_to_null (fun (r : Int) _ => r) [3, 1, 2] sortState0 "name" 2 1
    (by decide)

/-- C9: a calendar-grid date is disabled exactly when it is `<` the
configured `minDate`, `>` the configured `maxDate`, or falls on exactly
the calendar day (equal `getFullYear`, `getMonth`, `getDate` — the
`isSameDay` match of datepicker.ts:64-68, which ignores the time-of-day
component a `Date` also carries) of an entry in `disabledDates`; and the
day button's click handler invokes `onChange` exactly on the non-disabled
dates — a disabled date (also rendered with the `disabled` attribute)
never reaches `selectDate`/`onChange`. -/
theorem c9_disabled_date_policy (date : JSDate) (minD maxD : Option JSDate)
    (dis : Option (List JSDate)) :
    (isDateDisabled date minD maxD dis = true ↔
      ((∃ m, minD = some m ∧ dateLt date m = true) ∨
       (∃ m, maxD = some m ∧ dateLt m date = true) ∨
       (∃ ds, dis = some ds ∧ ∃ d ∈ ds, isSameDay d date = true))) ∧
    (isDateDisabled date minD maxD dis = true → dayButtonClick date minD maxD dis = none) ∧
    (isDateDisabled date minD maxD dis = false →
      dayButtonClick date minD maxD dis = some date) := by
  refine ⟨?_, ?_, ?_⟩
  · cases minD <;> cases maxD <;> cases dis <;>
      simp [isDateDisabled, List.any_eq_true]
  · intro h; simp [dayButtonClick, h]
  · intro h; simp [dayButtonClick, h]

/-- C9 witness: January 15 2024 in the grid is disabled by a
`disabledDates` entry lying at noon of that day, and clicking it never
invokes `onChange`. -/
theorem c9_disabled_date_policy_witness :
    dayButtonClick ⟨2024, 0, 15, 0⟩ none none (some [⟨2024, 0, 15, 43200000⟩]) = none :=
  (c9_disabled_date_policy ⟨2024, 0, 15, 0⟩ none none
    (some [⟨2024, 0, 15, 43200000⟩])).2.1 (by decide)

/-- The `foldl` of `formValidate`, characterized: every field is
validated (the loop body runs for each field unconditionally) and the
accumulator conjoins every field's outcome. -/
theorem formValidate_foldl_char (form : Form) (acc : Form × Bool) :
    form.foldl
      (fun acc nf =>
        let r := fieldValidate nf.2.rules nf.2.fst
        (acc.1 ++ [(nf.1, { nf.2 with fst := r.1 })], acc.2 && r.2)) acc
    = (acc.1 ++
        form.map (fun nf => (nf.1, { nf.2 with fst := (fieldValidate nf.2.rules nf.2.fst).1 })),
       acc.2 && form.all (fun nf => (fieldValidate nf.2.rules nf.2.fst).2)) := by
  induction form generalizing acc with
  | nil => simp
  | cons hd tl ih => simp [ih, Bool.and_assoc]

/-- C7: `form.validate()` runs every field's validator — the resulting
form maps *each* field, with no short-circuit, to the state its own
`validate()` produces — and returns `true` exactly when every field
passes.  After the call each field's errors list is exactly the failing
rules' messages recomputed from the field's current (unchanged) value,
and a field passes exactly when that list is empty. -/
theorem c7_validate_runs_every_field (form : Form) :
    (formValidate form).1
      = form.map (fun nf => (nf.1, { nf.2 with fst := (fieldValidate nf.2.rules nf.2.fst).1 })) ∧
    (formValidate form).2
      = form.all (fun nf => (fieldValidate nf.2.rules nf.2.fst).2) ∧
    ∀ (rs : List ValidationRule) (st : FieldState),
      ((fieldValidate rs st).1).errors = failingMessages rs st.value ∧
      ((fieldValidate rs st).1).value = st.value ∧
      (fieldValidate rs st).2 = (failingMessages rs st.value).isEmpty := by
  refine ⟨?_, ?_, fun rs st => ⟨rfl, rfl, rfl⟩⟩ <;>
    · unfold formValidate
      rw [formValidate_foldl_char]
      simp

/-- C8: `handleSubmit(fn)` validates first (its resulting field states
are exactly `validate()`'s); when validation fails it returns `null`
without invoking `fn` and without ever writing the `submitting` flag;
when validation passes it writes `submitting := true`, invokes `fn` with
the collected field values, and writes `submitting := false` on both the
resolve and the reject path, propagating `fn`'s outcome. -/
theorem c8_handle_submit_resets_submitting {ε ρ : Type} (form : Form)
    (onSubmit : List (String × String) → Except ε ρ) :
    (handleSubmit form onSubmit).form = (formValidate form).1 ∧
    ((formValidate form).2 = false →
      (handleSubmit form onSubmit).submittingTrace = [] ∧
      (handleSubmit form onSubmit).fnInvoked = false ∧
      (handleSubmit form onSubmit).result = .ok none) ∧
    ((formValidate form).2 = true →
      (handleSubmit form onSubmit).submittingTrace = [true, false] ∧
      (handleSubmit form onSubmit).fnInvoked = true ∧
      (handleSubmit form onSubmit).result =
        (match onSubmit (getValues (formValidate form).1) with
         | .ok r => .ok (some r)
         | .error e => .error e)) := by
  cases hv : (formValidate form).2 with
  | false =>
      refine ⟨?_, fun _ => ⟨?_, ?_, ?_⟩, fun hc => by simp [hv] at hc⟩ <;>
        simp [handleSubmit, hv]
  | true =>
      cases hr : onSubmit (getValues (formValidate form).1) with
      | ok r =>
          refine ⟨?_, fun hc => by simp [hv] at hc, fun _ => ⟨?_, ?_, ?_⟩⟩ <;>
            simp [handleSubmit, hv, hr]
      | error e =>
          refine ⟨?_, fun hc => by simp [hv] at hc, fun _ => ⟨?_, ?_, ?_⟩⟩ <;>
            simp [handleSubmit, hv, hr]

/-- C8 witness: a one-field form under `rules.required()`.  With the
empty value, submission is rejected up front and the callback never
runs; with a non-empty value, the submitting flag goes `true` then
`false` around the invoked callback. -/
theorem c8_handle_submit_resets_submitting_witness :
    (handleSubmit (ε := Unit) [("email", ⟨[requiredRule], fieldState0⟩)]
      (fun _ => .ok 42)).fnInvoked = false ∧
    (handleSubmit (ε := Unit) [("email", ⟨[requiredRule], fieldState0⟩)]
      (fun _ => .ok 42)).result = .ok none ∧
    (handleSubmit (ε := Unit) [("email", ⟨[requiredRule], ⟨"x", false, false, true, []⟩⟩)]
      (fun _ => .ok 42)).submittingTrace = [true, false] ∧
    (handleSubmit (ε := Unit) [("email", ⟨[requiredRule], ⟨"x", false, false, true, []⟩⟩)]
      (fun _ => .ok 42)).fnInvoked = true :=
  ⟨((c8_handle_submit_resets_submitting _ _).2.1 (by rfl)).2.1,
   ((c8_handle_submit_resets_submitting _ _).2.1 (by rfl)).2.2,
   ((c8_handle_submit_resets_submitting _ _).2.2 (by rfl)).1,
   ((c8_handle_submit_resets_submitting _ _).2.2 (by rfl)).2.1⟩

/-- Looking up the key of the head entry. -/
theorem lookupMap_cons_pos {V : Type} (hd : String × V) (tl : List (String × V)) (k : String)
    (h : hd.1 = k) : lookupMap (hd :: tl) k = some hd.2 := by
  simp [lookupMap, List.find?_cons_of_pos, h]

/-- Lookup skips a head entry with a different key. -/
theorem lookupMap_cons_neg {V : Type} (hd : String × V) (tl : List (String × V)) (k : String)
    (h : ¬ hd.1 = k) : lookupMap (hd :: tl) k = lookupMap tl k := by
  have hb : ((fun (e : String × V) => e.1 == k) hd) = false := by
    simpa using h
  simp [lookupMap, List.find?_cons_of_neg, hb]

/-- Appending a fresh key makes it found. -/
theorem lookupMap_append_self {V : Type} (m : List (String × V)) (k : String) (v : V)
    (h : lookupMap m k = none) : lookupMap (m ++ [(k, v)]) k = some v := by
  induction m with
  | nil => simp [lookupMap]
  | cons hd tl ih =>
      by_cases hk : hd.1 = k
      · rw [lookupMap_cons_pos hd tl k hk] at h
        exact absurd h (by simp)
      · rw [lookupMap_cons_neg hd tl k hk] at h
        rw [List.cons_append, lookupMap_cons_neg hd _ k hk]
        exact ih h

/-- `Map.delete` removes the key. -/
theorem lookupMap_mapDelete_self {V : Type} (m : List (String × V)) (k : String) :
    lookupMap (mapDelete m k) k = none := by
  induction m with
  | nil => rfl
  | cons hd tl ih =>
      by_cases hk : hd.1 = k
      · simpa [mapDelete, hk] using ih
      · have hcons : mapDelete (hd :: tl) k = hd :: mapDelete tl k := by
          simp [mapDelete, hk]
        rw [hcons, lookupMap_cons_neg hd _ k hk]
        exact ih

/-- `Map.delete` introduces no keys. -/
theorem lookupMap_mapDelete_none {V : Type} (m : List (String × V)) (k k2 : String)
    (h : lookupMap m k = none) : lookupMap (mapDelete m k2) k = none := by
  induction m with
  | nil => rfl
  | cons hd tl ih =>
      by_cases hk : hd.1 = k
      · rw [lookupMap_cons_pos hd tl k hk] at h
        exact absurd h (by simp)
      · rw [lookupMap_cons_neg hd tl k hk] at h
        by_cases hk2 : hd.1 = k2
        · have hcons : mapDelete (hd :: tl) k2 = mapDelete tl k2 := by
            simp [mapDelete, hk2]
          rw [hcons]; exact ih h
        · have hcons : mapDelete (hd :: tl) k2 = hd :: mapDelete tl k2 := by
            simp [mapDelete, hk2]
          rw [hcons, lookupMap_cons_neg hd _ k hk]
          exact ih h

/-- Deleting a sequence of keys never resurrects an absent key. -/
theorem foldl_mapDelete_none {V : Type} (l : List (String × V)) (m : List (String × V))
    (k : String) (h : lookupMap m k = none) :
    lookupMap (l.foldl (fun acc kv => mapDelete acc kv.1) m) k = none := by
  induction l generalizing m with
  | nil => exact h
  | cons hd tl ih => exact ih _ (lookupMap_mapDelete_none m k hd.1 h)

/-- After deleting every key of `l`, none of `l`'s keys is present. -/
theorem foldl_mapDelete_all {V : Type} (l : List (String × V)) (m : List (String × V))
    (k : String) (hk : ∃ v, (k, v) ∈ l) :
    lookupMap (l.foldl (fun acc kv => mapDelete acc kv.1) m) k = none := by
  induction l generalizing m with
  | nil => obtain ⟨v, hv⟩ := hk; cases hv
  | cons hd tl ih =>
      obtain ⟨v, hv⟩ := hk
      rcases List.mem_cons.mp hv with heq | hmem
      · have hhd : hd.1 = k := by rw [← heq]
        subst hhd
        exact foldl_mapDelete_none tl _ hd.1 (lookupMap_mapDelete_self m hd.1)
      · exact ih _ ⟨v, hmem⟩

/-- C5: when the plugin's name is not yet installed and any declared
dependency is missing, `use` throws synchronously (`.depError`), and the
registry it leaves behind — the state carried at the throw — is exactly
the input state: the dependency scan (plugins.ts:91-97) precedes every
mutation, so the plugin map, the hook subscriber arrays, and the
provides map are untouched.  When a plugin of the same name is already
installed, `use` is a warn-and-return no-op (`.alreadyInstalled`, again
carrying the unchanged state) and does not throw, even if dependencies
are missing. -/
theorem c5_use_dependency_check (s : PluginSt) (p : Plugin) :
    (lookupMap s.plugins p.name = none →
      (∃ d ∈ p.dependencies, lookupMap s.plugins d = none) →
      ∃ d, use s p = .depError d s) ∧
    (∀ q, lookupMap s.plugins p.name = some q → use s p = .alreadyInstalled s) := by
  constructor
  · intro h1 h2
    have hsome : (findMissingDep s p.dependencies).isSome := by
      rw [findMissingDep, List.find?_isSome]
      obtain ⟨d, hd, hn⟩ := h2
      exact ⟨d, hd, by simp [hn]⟩
    obtain ⟨d, hd⟩ := Option.isSome_iff_exists.mp hsome
    refine ⟨d, ?_⟩
    unfold use
    simp [h1, hd]
  · intro q hq
    unfold use
    simp [hq]

/-- C5 witness: on the empty registry, installing a plugin that depends
on the absent `"dep"` throws with the registry unchanged; re-installing
an already-present plugin name is the warning no-op. -/
theorem c5_use_dependency_check_witness :
    (∃ d, use pluginSt0 ⟨"plug", ["dep"], none, none, none, none, []⟩
      = .depError d pluginSt0) ∧
    use ⟨[("plug", ⟨"plug", [], none, none, none, none, []⟩)], [], [], [], [], []⟩
        ⟨"plug", ["dep"], none, none, none, none, []⟩
      = .alreadyInstalled
          ⟨[("plug", ⟨"plug", [], none, none, none, none, []⟩)], [], [], [], [], []⟩ :=
  ⟨(c5_use_dependency_check pluginSt0 ⟨"plug", ["dep"], none, none, none, none, []⟩).1
      (by decide) ⟨"dep", by simp, by decide⟩,
   (c5_use_dependency_check _ ⟨"plug", ["dep"], none, none, none, none, []⟩).2
      ⟨"plug", [], none, none, none, none, []⟩ (by decide)⟩

/-- `pushHooks` leaves the plugin map alone. -/
theorem pushHooks_plugins (s : PluginSt) (p : Plugin) :
    (pushHooks s p).plugins = s.plugins := by
  unfold pushHooks
  cases p.onMount <;> cases p.onUnmount <;> cases p.beforeStateUpdate <;>
    cases p.afterStateUpdate <;> rfl

/-- `registerProvides` leaves the plugin map alone. -/
theorem registerProvides_plugins (s : PluginSt) (p : Plugin) :
    (registerProvides s p).plugins = s.plugins := by
  unfold registerProvides
  generalize p.provides = l
  induction l generalizing s with
  | nil => rfl
  | cons hd tl ih => exact ih _

/-- `registerProvides` leaves all four hook subscriber arrays alone. -/
theorem registerProvides_hooks (s : PluginSt) (p : Plugin) :
    (registerProvides s p).onMount = s.onMount ∧
    (registerProvides s p).onUnmount = s.onUnmount ∧
    (registerProvides s p).beforeStateUpdate = s.beforeStateUpdate ∧
    (registerProvides s p).afterStateUpdate = s.afterStateUpdate := by
  unfold registerProvides
  generalize p.provides = l
  induction l generalizing s with
  | nil => exact ⟨rfl, rfl, rfl, rfl⟩
  | cons hd tl ih => exact ih _

/-- `pushHooks` appends exactly the declared hooks. -/
theorem pushHooks_fields (s : PluginSt) (p : Plugin) :
    (pushHooks s p).onMount = s.onMount ++ p.onMount.toList ∧
    (pushHooks s p).onUnmount = s.onUnmount ++ p.onUnmount.toList ∧
    (pushHooks s p).beforeStateUpdate = s.beforeStateUpdate ++ p.beforeStateUpdate.toList ∧
    (pushHooks s p).afterStateUpdate = s.afterStateUpdate ++ p.afterStateUpdate.toList := by
  unfold pushHooks
  cases p.onMount <;> cases p.onUnmount <;> cases p.beforeStateUpdate <;>
    cases p.afterStateUpdate <;> simp

/-- A successful `use` of a fresh name produces exactly the registered
state. -/
theorem use_ok_inv (s : PluginSt) (p : Plugin) (s' : PluginSt)
    (h1 : lookupMap s.plugins p.name = none)
    (hu : use s p = .ok s') :
    s' = registerProvides (pushHooks { s with plugins := mapSet s.plugins p.name p } p) p := by
  unfold use at hu
  simp [h1] at hu
  cases hfm : findMissingDep s p.dependencies with
  | some d => rw [hfm] at hu; simp at hu
  | none => rw [hfm] at hu; simpa using hu.symm

/-- C10: after `use(p)` (successful install of a fresh name) followed by
`uninstall(p.name)`, the four hook subscriber arrays are exactly as they
were after the install — `uninstall` (plugins.ts:169-185) removes only
the plugin entry and its provided keys — so `p`'s declared
`onMount`/`onUnmount`/`beforeStateUpdate`/`afterStateUpdate` callbacks
are still in the lists that `triggerMount`, `triggerUnmount`,
`applyBeforeStateUpdate` and `triggerAfterStateUpdate` invoke, even
though the plugin entry and its provided values are gone. -/
theorem c10_uninstall_keeps_hooks (s : PluginSt) (p : Plugin) (s' : PluginSt)
    (h1 : lookupMap s.plugins p.name = none)
    (hu : use s p = .ok s') :
    (uninstall s' p.name).1 = true ∧
    (uninstall s' p.name).2.onMount = s'.onMount ∧
    (uninstall s' p.name).2.onUnmount = s'.onUnmount ∧
    (uninstall s' p.name).2.beforeStateUpdate = s'.beforeStateUpdate ∧
    (uninstall s' p.name).2.afterStateUpdate = s'.afterStateUpdate ∧
    (∀ h, p.onMount = some h → h ∈ triggerMount (uninstall s' p.name).2) ∧
    (∀ h, p.onUnmount = some h → h ∈ triggerUnmount (uninstall s' p.name).2) ∧
    (∀ h, p.beforeStateUpdate = some h →
      h ∈ applyBeforeStateUpdateLog (uninstall s' p.name).2) ∧
    (∀ h, p.afterStateUpdate = some h →
      h ∈ triggerAfterStateUpdateLog (uninstall s' p.name).2) ∧
    lookupMap (uninstall s' p.name).2.plugins p.name = none ∧
    (∀ kv ∈ p.provides, lookupMap (uninstall s' p.name).2.provides kv.1 = none) := by
  have hs' := use_ok_inv s p s' h1 hu
  have hfind : s.plugins.find? (fun e => e.1 == p.name) = none := by
    have hm := h1
    unfold lookupMap at hm
    exact Option.map_eq_none'.mp hm
  have hsp : s'.plugins = s.plugins ++ [(p.name, p)] := by
    rw [hs', registerProvides_plugins, pushHooks_plugins]
    show mapSet s.plugins p.name p = _
    simp [mapSet, hfind]
  have hlook : lookupMap s'.plugins p.name = some p := by
    rw [hsp]; exact lookupMap_append_self _ _ _ h1
  have hun : uninstall s' p.name =
      (true,
       { s' with
         provides := p.provides.foldl (fun m kv => mapDelete m kv.1) s'.provides,
         plugins := mapDelete s'.plugins p.name }) := by
    unfold uninstall
    rw [hlook]
  have honM : s'.onMount = s.onMount ++ p.onMount.toList := by
    rw [hs', (registerProvides_hooks _ _).1, (pushHooks_fields _ _).1]
  have honU : s'.onUnmount = s.onUnmount ++ p.onUnmount.toList := by
    rw [hs', (registerProvides_hooks _ _).2.1, (pushHooks_fields _ _).2.1]
  have hbefore : s'.beforeStateUpdate = s.beforeStateUpdate ++ p.beforeStateUpdate.toList := by
    rw [hs', (registerProvides_hooks _ _).2.2.1, (pushHooks_fields _ _).2.2.1]
  have hafter : s'.afterStateUpdate = s.afterStateUpdate ++ p.afterStateUpdate.toList := by
    rw [hs', (registerProvides_hooks _ _).2.2.2, (pushHooks_fields _ _).2.2.2]
  rw [hun]
  refine ⟨rfl, rfl, rfl, rfl, rfl, ?_, ?_, ?_, ?_, ?_, ?_⟩
  · intro h hh
    show h ∈ s'.onMount
    rw [honM, hh]
    simp
  · intro h hh
    show h ∈ s'.onUnmount
    rw [honU, hh]
    simp
  · intro h hh
    show h ∈ s'.beforeStateUpdate
    rw [hbefore, hh]
    simp
  · intro h hh
    show h ∈ s'.afterStateUpdate
    rw [hafter, hh]
    simp
  · exact lookupMap_mapDelete_self _ _
  · intro kv hkv
    exact foldl_mapDelete_all _ _ _ ⟨kv.2, by simpa using hkv⟩

/-- C10 witness: installing a plugin with an `onMount` hook `7` and a
provided value, then uninstalling it, keeps hook `7` in the list
`triggerMount` invokes while the plugin entry itself is gone. -/
theorem c10_uninstall_keeps_hooks_witness :
    (uninstall ⟨[("plug", ⟨"plug", [], some 7, none, none, none, [("cap", 1)]⟩)],
        [("cap", 1)], [7], [], [], []⟩ "plug").1 = true ∧
    7 ∈ triggerMount (uninstall ⟨[("plug", ⟨"plug", [], some 7, none, none, none,
        [("cap", 1)]⟩)], [("cap", 1)], [7], [], [], []⟩ "plug").2 ∧
    lookupMap (uninstall ⟨[("plug", ⟨"plug", [], some 7, none, none, none,
        [("cap", 1)]⟩)], [("cap", 1)], [7], [], [], []⟩ "plug").2.plugins "plug" = none :=
  ⟨(c10_uninstall_keeps_hooks pluginSt0 ⟨"plug", [], some 7, none, none, none, [("cap", 1)]⟩
      _ (by decide) (by decide)).1,
   (c10_uninstall_keeps_hooks pluginSt0 ⟨"plug", [], some 7, none, none, none, [("cap", 1)]⟩
      _ (by decide) (by decide)).2.2.2.2.2.1 7 rfl,
   (c10_uninstall_keeps_hooks pluginSt0 ⟨"plug", [], some 7, none, none, none, [("cap", 1)]⟩
      _ (by decide) (by decide)).2.2.2.2.2.2.2.2.2.1⟩

end Banda
